import Mathlib

/-!
Verification of the core of the `@theventures/caret` HTTP API client
(`src/client.ts`, `src/core/errors.ts`, `src/webhooks/verifier.ts`).

The development shallowly embeds:
* the JavaScript value / JSON layer used for request and response bodies
  (`JsVal`, `stringify` mirroring `JSON.stringify`),
* the response-header handling of the `fetch` pipeline (WHATWG `Headers`
  iteration yields byte-lowercased header names; modelled by `lowerHeaders`),
* the error taxonomy of `src/core/errors.ts` (`errorClassName`,
  `mkCaretAPIError`, `CaretAPIError.generate`),
* the retry/backoff engine of `Caret.request` (`requestLoop`, `requestRun`),
  with the transport abstracted as a function from the attempt index to a
  fetch outcome,
* the URL construction of `Caret.request` (`constructedURL`), with the
  WHATWG `new URL(rel, base)` resolution modelled on the subset of inputs the
  claims range over (no dot segments, scheme prefixes, query/fragment
  delimiters, or characters subject to percent-encoding in `rel`),
* the body inclusion rule of `Caret.request` (`requestBody`),
* the `AbortSignal.timeout` usage of `Caret.request` (`requestAbortSignal`),
* the webhook verifier (`verify`, `verifyRequest`), with the HMAC-SHA256
  primitive of `node:crypto` abstracted as a parameter returning the digest
  bytes, and Node's lenient `Buffer.from(s, "hex")` decoding modelled by
  `bufferFromHex`,
* the `Caret` constructor's API-key resolution (`caretConstruct`).

JavaScript-specific semantics are modelled explicitly where they matter:
falsiness of `""` (`jsOrStr`, `truthy`), `parseInt` on a digit prefix
(`parseIntPrefix`, with `setTimeout(NaN)` behaving as a zero delay), and
nullish coalescing (`caretConstruct`).
-/

/-- JavaScript values as used for request/response bodies: the JSON fragment
(`null`, booleans, numbers, strings, arrays, objects). Numbers are modelled
as integers; fractional doubles do not occur in the claims. -/
inductive JsVal where
  | jnull : JsVal
  | jbool : Bool → JsVal
  | jnum : Int → JsVal
  | jstr : String → JsVal
  | jarr : List JsVal → JsVal
  | jobj : List (String × JsVal) → JsVal

/-- JSON string escaping as performed by `JSON.stringify`: quote, backslash
and the common control characters get two-character escapes; other control
characters get `\u00XX` escapes. -/
def jsonEscapeChar (c : Char) : List Char :=
  if c = '"' then ['\\', '"']
  else if c = '\\' then ['\\', '\\']
  else if c = '\n' then ['\\', 'n']
  else if c = '\r' then ['\\', 'r']
  else if c = '\t' then ['\\', 't']
  else if c = '\x08' then ['\\', 'b']
  else if c = '\x0c' then ['\\', 'f']
  else if c.toNat < 32 then
    ['\\', 'u', '0', '0',
      (if c.toNat / 16 < 10 then Char.ofNat (48 + c.toNat / 16)
       else Char.ofNat (87 + c.toNat / 16)),
      (if c.toNat % 16 < 10 then Char.ofNat (48 + c.toNat % 16)
       else Char.ofNat (87 + c.toNat % 16))]
  else [c]

/-- The `JSON.stringify` encoding of a string value. -/
def jsonQuote (s : String) : String :=
  ⟨'"' :: (s.data.flatMap jsonEscapeChar) ++ ['"']⟩

mutual

/-- The `JSON.stringify` encoding (the canonical JSON encoding) of the modelled value
domain. Object keys are emitted in insertion order, as in JavaScript. -/
def stringify : JsVal → String
  | .jnull => "null"
  | .jbool true => "true"
  | .jbool false => "false"
  | .jnum n => toString n
  | .jstr s => jsonQuote s
  | .jarr xs => "[" ++ stringifyElems xs ++ "]"
  | .jobj fs => "\x7b" ++ stringifyFields fs ++ "\x7d"

/-- Comma-separated serialization of array elements. -/
def stringifyElems : List JsVal → String
  | [] => ""
  | [x] => stringify x
  | x :: y :: rest => stringify x ++ "," ++ stringifyElems (y :: rest)

/-- Comma-separated serialization of object fields. -/
def stringifyFields : List (String × JsVal) → String
  | [] => ""
  | [(k, v)] => jsonQuote k ++ ":" ++ stringify v
  | (k, v) :: f :: rest =>
      jsonQuote k ++ ":" ++ stringify v ++ "," ++ stringifyFields (f :: rest)

end

/-- ASCII lowercasing of a character, as applied by the WHATWG `Headers`
machinery to header names. -/
def asciiLowerChar (c : Char) : Char :=
  if 65 ≤ c.toNat ∧ c.toNat ≤ 90 then Char.ofNat (c.toNat + 32) else c

/-- ASCII lowercasing of a string. -/
def asciiLower (s : String) : String := ⟨s.data.map asciiLowerChar⟩

/-- The `responseHeaders` record built by `Caret.request` from
`response.headers.forEach((value, key) => { responseHeaders[key] = value })`:
WHATWG `Headers` iteration yields byte-lowercased header names, so the
record's keys are the lowercased wire names. -/
def lowerHeaders (hs : List (String × String)) : List (String × String) :=
  hs.map (fun kv => (asciiLower kv.1, kv.2))

/-- JavaScript record lookup `headers[key]` (exact key match; `none` models
`undefined`). Header records produced by the pipeline have pairwise distinct
keys, so first-match lookup agrees with record semantics. -/
def lookupHeader (hs : List (String × String)) (key : String) : Option String :=
  (hs.find? (fun kv => kv.1 == key)).map (fun kv => kv.2)

/-- JavaScript `a || b` on possibly-undefined strings: the empty string is
falsy, so it falls through to the second operand. -/
def jsOrStr : Option String → Option String → Option String
  | some v, b => if v = "" then b else some v
  | none, b => b

/-- The `requestId` computation of the `CaretAPIError` constructor
(`src/core/errors.ts`): `headers['x-request-id'] || headers['X-Request-ID']`.
`none` models leaving the optional field `undefined`. -/
def requestIdOf (headers : List (String × String)) : Option String :=
  jsOrStr (lookupHeader headers "x-request-id") (lookupHeader headers "X-Request-ID")

/-- The `name` assigned by the error subclass that
`CaretAPIError.getErrorClass` selects for a status code
(`src/core/errors.ts`). -/
def errorClassName (status : Nat) : String :=
  match status with
  | 400 => "BadRequestError"
  | 401 => "AuthenticationError"
  | 403 => "PermissionDeniedError"
  | 404 => "NotFoundError"
  | 409 => "ConflictError"
  | 422 => "UnprocessableEntityError"
  | 429 => "RateLimitError"
  | 500 => "InternalServerError"
  | _ => "CaretAPIError"

/-- A constructed `CaretAPIError` (or subclass) instance: status, raw error
body, message, response headers, subclass `name`, and the `requestId`
extracted by the constructor. -/
structure APIErrorM where
  status : Nat
  error : JsVal
  message : String
  headers : List (String × String)
  name : String
  requestId : Option String

/-- The `CaretAPIError` constructor body: stores its arguments and computes
`requestId` from the headers record. -/
def mkCaretAPIError (status : Nat) (error : JsVal) (message : String)
    (headers : List (String × String)) (name : String) : APIErrorM :=
  ⟨status, error, message, headers, name, requestIdOf headers⟩

/-- The factory `CaretAPIError.generate`: dispatches on the status code to an error
subclass and constructs it. -/
def generate (status : Nat) (error : JsVal) (message : String)
    (headers : List (String × String)) : APIErrorM :=
  mkCaretAPIError status error message headers (errorClassName status)

/-- JavaScript `parseInt` restricted to a leading run of decimal digits:
`some n` when the string begins with at least one digit (further characters
are ignored, as in `parseInt("5x") = 5`), `none` when it does not (the `NaN`
case). Leading whitespace and sign handling are not modelled; the claims
range over plain digit strings. -/
def parseIntPrefix (s : String) : Option Nat :=
  let ds := s.data.takeWhile Char.isDigit
  if ds.isEmpty then none
  else some (ds.foldl (fun acc c => 10 * acc + (c.toNat - 48)) 0)

/-- The sleep duration (in milliseconds) chosen by `Caret.request` before
retrying a 429 response at a given attempt index:
`retryAfter ? parseInt(retryAfter) * 1000 : 2 ** attempt * 1000`, where
`retryAfter = error.headers["retry-after"] || error.headers["Retry-After"]`.
A `NaN` product (non-numeric header) makes `setTimeout` fire without delay,
modelled as `0`. -/
def retryDelayMs (e : APIErrorM) (attempt : Nat) : Nat :=
  match jsOrStr (lookupHeader e.headers "retry-after")
      (lookupHeader e.headers "Retry-After") with
  | some v =>
      if v = "" then 2 ^ attempt * 1000
      else
        match parseIntPrefix v with
        | some n => n * 1000
        | none => 0
  | none => 2 ^ attempt * 1000

/-- An HTTP response as seen by `Caret.request`: status code, wire headers
(as supplied to the `Response`, with their original capitalization),
the result of `response.json()` (`Except.error` models a body that is not
valid JSON, carrying the parse error's message), and the status text. -/
structure HttpResponseM where
  status : Nat
  wireHeaders : List (String × String)
  jsonBody : Except String JsVal
  statusText : String

/-- The outcome of one `fetch` call: a response, or a thrown error
(network failure, timeout abort, DNS error, ...) carrying its message. -/
inductive FetchResultM where
  | resp : HttpResponseM → FetchResultM
  | thrown : String → FetchResultM

/-- The error caught by the `catch` block of `Caret.request`'s retry loop:
either a typed `CaretAPIError` thrown by the non-ok branch, or any other
error (unclassified failure). -/
inductive CaughtErr where
  | api : APIErrorM → CaughtErr
  | other : String → CaughtErr

/-- What one iteration of the `try` block produces: the parsed success body,
or a caught error. -/
inductive AttemptOutcome where
  | ok : JsVal → AttemptOutcome
  | err : CaughtErr → AttemptOutcome

/-- The `message` field of a parsed error body, as read by
`errorData.message`: present only when the body is an object whose `message`
field is a string (other value shapes are not modelled; the claims do not
depend on them). -/
def jsMessageField (v : JsVal) : Option String :=
  match v with
  | .jobj fs =>
      match fs.find? (fun kv => kv.1 == "message") with
      | some (_, JsVal.jstr s) => some s
      | _ => none
  | _ => none

/-- The body of the `try` block of `Caret.request` for one fetch outcome:
collect `responseHeaders` (lowercased names), and either
* `response.ok` (status 200–299): return the parsed JSON body, a parse
  failure being thrown onward as an unclassified error; or
* non-ok: parse the error body (falling back to `{ message: statusText }`),
  and throw `CaretAPIError.generate(status, errorData, errorData.message ||
  "HTTP <status>: <statusText>", responseHeaders)`; or
* a thrown fetch error: caught as an unclassified error. -/
def processFetch : FetchResultM → AttemptOutcome
  | .thrown m => .err (.other m)
  | .resp r =>
      let responseHeaders := lowerHeaders r.wireHeaders
      if 200 ≤ r.status ∧ r.status ≤ 299 then
        match r.jsonBody with
        | .ok v => .ok v
        | .error e => .err (.other e)
      else
        let errorData : JsVal :=
          match r.jsonBody with
          | .ok v => v
          | .error _ => .jobj [("message", .jstr r.statusText)]
        let fallbackMsg := "HTTP " ++ toString r.status ++ ": " ++ r.statusText
        let msg :=
          match jsMessageField errorData with
          | some s => if s = "" then fallbackMsg else s
          | none => fallbackMsg
        .err (.api (generate r.status errorData msg responseHeaders))

/-- How `Caret.request` terminates: returning a parsed body, or throwing
(either a typed `CaretAPIError` or the last-seen unclassified error,
distinguished by the `CaughtErr` constructor). -/
inductive ReqOutcome where
  | ok : JsVal → ReqOutcome
  | threw : CaughtErr → ReqOutcome

/-- Observable trace of one `Caret.request` run: its outcome, the number of
fetch attempts performed, and the list of `setTimeout` sleeps (in
milliseconds) in order. -/
structure RunResult where
  outcome : ReqOutcome
  attempts : Nat
  sleepsMs : List Nat

/-- The retry loop of `Caret.request`
(`for (let attempt = 0; attempt <= this.maxRetries; attempt++)`), with
`fuel` the number of loop iterations still permitted
(`maxRetries + 1 - attempt`), `last` the current value of `lastError`, and
`sleeps` the sleeps performed so far. When the loop exhausts its iterations
it throws `lastError` (`last` is always set on that path; the default is
unreachable from `requestRun`). -/
def requestLoop (maxRetries : Nat) (tr : Nat → FetchResultM) :
    Nat → Nat → Option CaughtErr → List Nat → RunResult
  | 0, attempt, last, sleeps =>
      ⟨.threw (last.getD (.other "unreachable")), attempt, sleeps⟩
  | fuel + 1, attempt, _last, sleeps =>
      match processFetch (tr attempt) with
      | .ok v => ⟨.ok v, attempt + 1, sleeps⟩
      | .err c =>
          match c with
          | .api e =>
              if e.status = 429 ∧ attempt < maxRetries then
                requestLoop maxRetries tr fuel (attempt + 1) (some (.api e))
                  (sleeps ++ [retryDelayMs e attempt])
              else ⟨.threw (.api e), attempt + 1, sleeps⟩
          | .other m =>
              if attempt < maxRetries then
                requestLoop maxRetries tr fuel (attempt + 1) (some (.other m))
                  (sleeps ++ [2 ^ attempt * 1000])
              else
                requestLoop maxRetries tr fuel (attempt + 1) (some (.other m))
                  sleeps

/-- A full `Caret.request` run over a transport `tr` (the outcome of the
fetch call at each attempt index), starting at attempt `0` with
`maxRetries + 1` permitted iterations. -/
def requestRun (maxRetries : Nat) (tr : Nat → FetchResultM) : RunResult :=
  requestLoop maxRetries tr (maxRetries + 1) 0 none []

/-- The sleep a retried attempt contributes, by the kind of failure it hit:
the 429 branch uses `retryDelayMs`, the unclassified branch uses
`2 ^ attempt` seconds. (Successful attempts never sleep.) -/
def stepDelay (o : AttemptOutcome) (i : Nat) : Nat :=
  match o with
  | .err (.api e) => retryDelayMs e i
  | _ => 2 ^ i * 1000

/-- The run outcome determined by the final attempt's result. -/
def finalOutcome (o : AttemptOutcome) : ReqOutcome :=
  match o with
  | .ok v => .ok v
  | .err c => .threw c

/-- The typed API error carried by an attempt outcome, when there is one. -/
def apiErrorOf (o : AttemptOutcome) : Option APIErrorM :=
  match o with
  | .err (.api e) => some e
  | _ => none

/-- A well-formed absolute base URL, split for the resolution model:
`origin` is the scheme and authority (e.g. `"https://api.caret.so"`, with no
trailing `/`), `path` the URL path (empty or beginning with `/`). The string
the client stores is `origin ++ path`. -/
structure BaseURL where
  origin : String
  path : String

/-- JavaScript `s.startsWith("/")`, computed on the character list (reduction-friendly
form of `String.startsWith`). -/
def startsWithSlash (s : String) : Bool :=
  match s.data with
  | '/' :: _ => true
  | _ => false

/-- JavaScript `s.slice(1)`, computed on the character list. -/
def dropFirstChar (s : String) : String :=
  match s.data with
  | _ :: rest => ⟨rest⟩
  | [] => s

/-- JavaScript `s.endsWith("/")`, computed on the character list. -/
def endsWithSlash (s : String) : Bool :=
  match s.data.getLast? with
  | some '/' => true
  | _ => false

/-- The client's base-URL normalization
(`this.baseURL.endsWith("/") ? this.baseURL : this.baseURL + "/"`), expressed
on the split form: since the origin does not end in `/`, the string ends in
`/` exactly when the path does. -/
def normalizeBase (b : BaseURL) : BaseURL :=
  if endsWithSlash b.path then b else ⟨b.origin, b.path ++ "/"⟩

/-- The string form of a base URL. -/
def baseString (b : BaseURL) : String := b.origin ++ b.path

/-- WHATWG `new URL(rel, base).toString()` restricted to the inputs the
claims range over: `rel` free of scheme prefixes, `?`/`#` delimiters, `.`/`..`
segments and characters subject to percent-encoding, and `base.path` ending
in `/` (which `normalizeBase` guarantees at the call site). On this subset a
`rel` starting with `/` is root-relative (it replaces the base's entire
path), and any other `rel` is appended to the base path. -/
def resolveURL (b : BaseURL) (rel : String) : String :=
  if startsWithSlash rel then b.origin ++ rel
  else b.origin ++ b.path ++ rel

/-- The URL constructed by `Caret.request`:
`const cleanPath = path.startsWith("/") ? path.slice(1) : path` followed by
`new URL(cleanPath, <normalized baseURL>)`. -/
def constructedURL (b : BaseURL) (path : String) : String :=
  let cleanPath := if startsWithSlash path then dropFirstChar path else path
  resolveURL (normalizeBase b) cleanPath

/-- Stripping one leading separator from a path, as the claim's phrase
"the path stripped of its leading separator" describes (and as the code's
`path.slice(1)` performs). -/
def stripLeadingSlash (path : String) : String :=
  if startsWithSlash path then dropFirstChar path else path

/-- Modelled from the spec: the URL the claim says `request` constructs —
the baseURL "normalized to end with exactly one trailing separator"
concatenated with the path stripped of its leading separator. -/
def specClaimedURL (b : BaseURL) (path : String) : String :=
  ⟨((baseString b).data.reverse.dropWhile (fun c => c == '/')).reverse⟩
    ++ "/" ++ stripLeadingSlash path

/-- Characters on which the URL-resolution model is exact: ASCII
alphanumerics, `-`, `_`, `~` and the separator `/` (no `.` — hence no dot
segments —, no `:`, `?`, `#`, `%`, backslash, or characters that the URL
serializer percent-encodes). -/
def urlPlainChar (c : Char) : Bool :=
  c.isAlphanum || c = '-' || c = '_' || c = '~' || c = '/'

/-- JavaScript truthiness on the modelled value domain: `null`, `false`,
`0` and `""` are falsy; every array and object is truthy. -/
def truthy : JsVal → Bool
  | .jnull => false
  | .jbool b => b
  | .jnum n => n ≠ 0
  | .jstr s => s ≠ ""
  | .jarr _ => true
  | .jobj _ => true

/-- The serialized request body attached by `Caret.request`:
`if (options.body && (method === "POST" || method === "PATCH" || method ===
"PUT")) { requestOptions.body = JSON.stringify(options.body) }`. `none`
models an absent `requestOptions.body`. -/
def requestBody (method : String) (body : Option JsVal) : Option String :=
  match body with
  | some b =>
      if truthy b ∧ (method = "POST" ∨ method = "PATCH" ∨ method = "PUT") then
        some (stringify b)
      else none
  | none => none

/-- An `AbortSignal.timeout` instance: it fires (aborts) once the absolute
time reaches `createdAt + timeoutMs`. -/
structure AbortSignalM where
  createdAt : Nat
  timeoutMs : Nat

/-- Whether the signal has fired by absolute time `t`. -/
def AbortSignalM.abortedAt (s : AbortSignalM) (t : Nat) : Bool :=
  s.createdAt + s.timeoutMs ≤ t

/-- The signal `Caret.request` passes to every fetch attempt: created once,
in `requestOptions` before the retry loop begins (at the request's start
time `t0`), and reused unchanged by each iteration's `fetch(url.toString(),
requestOptions)`. -/
def requestAbortSignal (timeoutMs t0 : Nat) : AbortSignalM :=
  ⟨t0, timeoutMs⟩

/-- Modelled from the spec: the signal that the claim's "every retry attempt
gets a fresh timeoutMs budget" would require — a new `AbortSignal.timeout`
created when the attempt starts. -/
def specFreshAttemptSignal (timeoutMs tAttemptStart : Nat) : AbortSignalM :=
  ⟨tAttemptStart, timeoutMs⟩

/-- Hex digit value of a character (both cases), `none` for a non-hex
character. -/
def hexVal (c : Char) : Option Nat :=
  if '0' ≤ c ∧ c ≤ '9' then some (c.toNat - 48)
  else if 'a' ≤ c ∧ c ≤ 'f' then some (c.toNat - 87)
  else if 'A' ≤ c ∧ c ≤ 'F' then some (c.toNat - 55)
  else none

/-- Node's `Buffer.from(s, "hex")`: decodes two-character hex pairs
case-insensitively, stopping (without throwing) at the first invalid pair;
a trailing unpaired character is dropped. -/
def bufferFromHex : List Char → List Nat
  | c1 :: c2 :: rest =>
      match hexVal c1, hexVal c2 with
      | some h, some l => (16 * h + l) :: bufferFromHex rest
      | _, _ => []
  | _ => []

/-- The lowercase hex digit for a value below 16. -/
def hexDigitChar (n : Nat) : Char :=
  if n < 10 then Char.ofNat (48 + n) else Char.ofNat (87 + n)

/-- Lowercase hex encoding of a byte sequence, as produced by
`hmac.digest("hex")`. -/
def toLowerHexStr (bytes : List Nat) : String :=
  ⟨bytes.flatMap (fun b => [hexDigitChar (b / 16 % 16), hexDigitChar (b % 16)])⟩

/-- Node's `crypto.timingSafeEqual` on byte sequences: throws (`none`) when
the lengths differ, otherwise reports byte equality. (The constant-time
aspect is not observable in this model.) -/
def timingSafeEqualM (a b : List Nat) : Option Bool :=
  if a.length = b.length then some (a == b) else none

/-- The method `WebhookVerifier.verify(payload, signature)`
(`src/webhooks/verifier.ts`), with the HMAC-SHA256 primitive abstracted as
`hmac : secret → payload → digest bytes`: computes the lowercase-hex digest
of the payload, then returns
`timingSafeEqual(Buffer.from(calculatedSignature, "hex"),
Buffer.from(signature, "hex"))`, the surrounding `try`/`catch` turning a
thrown length-mismatch error into `false`. Total by construction: it never
throws. -/
def verify (hmac : String → String → List Nat) (secret payload signature : String) :
    Bool :=
  let calculatedSignature := toLowerHexStr (hmac secret payload)
  match timingSafeEqualM (bufferFromHex calculatedSignature.data)
      (bufferFromHex signature.data) with
  | some b => b
  | none => false

/-- An inbound webhook request as `verifyRequest` consumes it: its headers
(wire capitalization) and the result of `request.text()` (`Except.error`
models a failing body read, carrying the error's message). -/
structure RequestM where
  headers : List (String × String)
  bodyText : Except String String

/-- WHATWG `Headers.get(name)`: case-insensitive header-name match; `none`
models `null`. -/
def headersGet (hs : List (String × String)) (name : String) : Option String :=
  (hs.find? (fun kv => asciiLower kv.1 == asciiLower name)).map (fun kv => kv.2)

/-- The result object of `WebhookVerifier.verifyRequest`: `isValid`, the
parsed event (`data`) and the error string, each `none` when the
corresponding field is left undefined. -/
structure VerifyRequestResult where
  isValid : Bool
  data : Option JsVal
  error : Option String

/-- The method `WebhookVerifier.verifyRequest(request)` (`src/webhooks/verifier.ts`),
with JSON parsing abstracted as `parseJson` (`Except.error` modelling a
thrown `SyntaxError` carrying its message): reads the
`x-caret-signature` header (case-insensitively; a missing or JS-falsy empty
value fails `if (!signature)`), then reads the body, runs `verify`, and
parses the body as JSON, the `try`/`catch` turning a failed body read or
JSON parse into an invalid result carrying the error's message. Total by
construction: it never throws. -/
def verifyRequest (hmac : String → String → List Nat) (secret : String)
    (parseJson : String → Except String JsVal) (req : RequestM) :
    VerifyRequestResult :=
  match headersGet req.headers "x-caret-signature" with
  | none => ⟨false, none, some "Missing X-Caret-Signature header"⟩
  | some signature =>
      if signature = "" then ⟨false, none, some "Missing X-Caret-Signature header"⟩
      else
        match req.bodyText with
        | .error e => ⟨false, none, some e⟩
        | .ok body =>
            if verify hmac secret body signature then
              match parseJson body with
              | .ok d => ⟨true, some d, none⟩
              | .error e => ⟨false, none, some e⟩
            else ⟨false, none, some "Invalid signature"⟩

/-- The `Caret` constructor's API-key resolution and validation
(`src/client.ts`): `this.apiKey = options.apiKey ?? process.env.CARET_API_KEY
?? ""` (nullish coalescing: only `null`/`undefined` fall through), then
`if (!this.apiKey) throw new Error(...)`. Returns the resolved key, or the
construction error's message. -/
def caretConstruct (optKey envKey : Option String) : Except String String :=
  let apiKey :=
    match optKey with
    | some k => k
    | none =>
        match envKey with
        | some k => k
        | none => ""
  if apiKey = "" then
    .error ("API key is required. Set CARET_API_KEY environment variable or " ++
      "pass apiKey option.")
  else .ok apiKey

/-- The condition under which the retry loop proceeds to another iteration
after the attempt at index `i`: a 429 `CaretAPIError` with attempts
remaining, or any unclassified error (the latter also "continues" at the
last attempt, merely to exit the loop and throw `lastError`). -/
def continuesAt (mr : Nat) (o : AttemptOutcome) (i : Nat) : Prop :=
  match o with
  | .ok _ => False
  | .err (.api e) => e.status = 429 ∧ i < mr
  | .err (.other _) => True

/-- The condition under which the loop terminates with a result at the
attempt at index `i`: success, or a `CaretAPIError` that is not a
429-with-attempts-remaining. -/
def stopsAt (mr : Nat) (o : AttemptOutcome) (i : Nat) : Prop :=
  match o with
  | .ok _ => True
  | .err (.api e) => ¬(e.status = 429 ∧ i < mr)
  | .err (.other _) => False

/-- Full characterization of a run started at `attempt` with sleeps `sleeps`
already performed: attempt count bounds, the sleep trace (one sleep per
retried attempt, none for the final one), the continuation condition at
every non-final attempt, the outcome as determined by the final attempt, and
that the run either exhausted all attempts or stopped at a stopping
outcome. -/
def RunSpec (mr : Nat) (tr : Nat → FetchResultM) (attempt : Nat)
    (sleeps : List Nat) (r : RunResult) : Prop :=
  (attempt + 1 ≤ r.attempts ∧ r.attempts ≤ mr + 1)
  ∧ r.sleepsMs = sleeps ++ (List.range' attempt (r.attempts - 1 - attempt)).map
      (fun i => stepDelay (processFetch (tr i)) i)
  ∧ (∀ i, attempt ≤ i → i + 1 < r.attempts → continuesAt mr (processFetch (tr i)) i)
  ∧ r.outcome = finalOutcome (processFetch (tr (r.attempts - 1)))
  ∧ (r.attempts = mr + 1 ∨ stopsAt mr (processFetch (tr (r.attempts - 1))) (r.attempts - 1))

theorem requestLoop_spec (mr : Nat) (tr : Nat → FetchResultM) :
    ∀ fuel attempt last sleeps, fuel + attempt = mr + 1 → 1 ≤ fuel →
      RunSpec mr tr attempt sleeps (requestLoop mr tr fuel attempt last sleeps) := by
  intro fuel
  induction fuel with
  | zero => intro attempt last sleeps _ h1; omega
  | succ fuel ih =>
    intro attempt last sleeps hsum _
    cases hpf : processFetch (tr attempt) with
    | ok v =>
      simp only [requestLoop, hpf]
      refine ⟨⟨le_refl _, by dsimp only; omega⟩, ?_, ?_, ?_, ?_⟩
      · simp
      · intro i hi hlt; dsimp only at hlt; omega
      · simp [finalOutcome, hpf]
      · right; simp [stopsAt, hpf]
    | err c =>
      cases c with
      | api e =>
        by_cases hc : e.status = 429 ∧ attempt < mr
        · simp only [requestLoop, hpf, if_pos hc]
          have hf : 1 ≤ fuel := by omega
          have IH := ih (attempt + 1) (some (.api e))
            (sleeps ++ [retryDelayMs e attempt]) (by omega) hf
          obtain ⟨⟨ha1, ha2⟩, hb, hcont, hd, he⟩ := IH
          refine ⟨⟨by omega, ha2⟩, ?_, ?_, hd, he⟩
          · rw [hb]
            have harith :
                (requestLoop mr tr fuel (attempt + 1) (some (.api e))
                  (sleeps ++ [retryDelayMs e attempt])).attempts - 1 - attempt =
                ((requestLoop mr tr fuel (attempt + 1) (some (.api e))
                  (sleeps ++ [retryDelayMs e attempt])).attempts - 1 - (attempt + 1)) + 1 := by
              omega
            rw [harith, List.range'_succ, List.map_cons, List.append_assoc]
            simp [stepDelay, hpf]
          · intro i hi hlt
            rcases Nat.eq_or_lt_of_le hi with heq | hgt
            · subst heq; simp [continuesAt, hpf]; exact hc
            · exact hcont i hgt hlt
        · simp only [requestLoop, hpf, if_neg hc]
          refine ⟨⟨le_refl _, by dsimp only; omega⟩, ?_, ?_, ?_, ?_⟩
          · simp
          · intro i hi hlt; dsimp only at hlt; omega
          · simp [finalOutcome, hpf]
          · right; simp only [Nat.add_sub_cancel]; rw [hpf]; exact hc
      | other m =>
        by_cases hlt : attempt < mr
        · simp only [requestLoop, hpf, if_pos hlt]
          have hf : 1 ≤ fuel := by omega
          have IH := ih (attempt + 1) (some (.other m))
            (sleeps ++ [2 ^ attempt * 1000]) (by omega) hf
          obtain ⟨⟨ha1, ha2⟩, hb, hcont, hd, he⟩ := IH
          refine ⟨⟨by omega, ha2⟩, ?_, ?_, hd, he⟩
          · rw [hb]
            have harith :
                (requestLoop mr tr fuel (attempt + 1) (some (.other m))
                  (sleeps ++ [2 ^ attempt * 1000])).attempts - 1 - attempt =
                ((requestLoop mr tr fuel (attempt + 1) (some (.other m))
                  (sleeps ++ [2 ^ attempt * 1000])).attempts - 1 - (attempt + 1)) + 1 := by
              omega
            rw [harith, List.range'_succ, List.map_cons, List.append_assoc]
            simp [stepDelay, hpf]
          · intro i hi hlt'
            rcases Nat.eq_or_lt_of_le hi with heq | hgt
            · subst heq; simp [continuesAt, hpf]
            · exact hcont i hgt hlt'
        · have hattempt : attempt = mr := by omega
          have hfuel : fuel = 0 := by omega
          subst hfuel
          simp only [requestLoop, hpf, if_neg hlt, Option.getD]
          refine ⟨⟨le_refl _, by dsimp only; omega⟩, ?_, ?_, ?_, ?_⟩
          · simp
          · intro i hi hlt'; dsimp only at hlt'; omega
          · simp [finalOutcome, hpf]
          · left; dsimp only; omega

theorem requestRun_spec (mr : Nat) (tr : Nat → FetchResultM) :
    RunSpec mr tr 0 [] (requestRun mr tr) :=
  requestLoop_spec mr tr (mr + 1) 0 none [] (by omega) (by omega)

theorem requestRun_attempts_pos (mr : Nat) (tr : Nat → FetchResultM) :
    1 ≤ (requestRun mr tr).attempts :=
  (requestRun_spec mr tr).1.1

theorem requestRun_attempts_le (mr : Nat) (tr : Nat → FetchResultM) :
    (requestRun mr tr).attempts ≤ mr + 1 :=
  (requestRun_spec mr tr).1.2

theorem requestRun_sleeps_len (mr : Nat) (tr : Nat → FetchResultM) :
    (requestRun mr tr).sleepsMs.length = (requestRun mr tr).attempts - 1 := by
  have h := (requestRun_spec mr tr).2.1
  rw [h]; simp

theorem requestRun_sleep_at (mr : Nat) (tr : Nat → FetchResultM) (i : Nat)
    (h : i + 1 < (requestRun mr tr).attempts) :
    (requestRun mr tr).sleepsMs[i]? = some (stepDelay (processFetch (tr i)) i) := by
  have hs := (requestRun_spec mr tr).2.1
  rw [hs]
  simp only [List.nil_append]
  rw [List.getElem?_map]
  rw [List.getElem?_eq_getElem (by simpa using (by omega : i < (requestRun mr tr).attempts - 1 - 0))]
  simp [List.getElem_range']

/-- If attempt `i` runs, hits an outcome on which the loop does not continue
(success, or a `CaretAPIError` other than a retryable 429), the run ends
there: `i + 1` total attempts, the outcome of attempt `i`, and no sleep
after attempt `i`. -/
theorem requestRun_stops (mr : Nat) (tr : Nat → FetchResultM) (i : Nat)
    (hi : i < (requestRun mr tr).attempts)
    (hnc : ¬ continuesAt mr (processFetch (tr i)) i) :
    (requestRun mr tr).attempts = i + 1
    ∧ (requestRun mr tr).outcome = finalOutcome (processFetch (tr i))
    ∧ (requestRun mr tr).sleepsMs.length = i := by
  obtain ⟨⟨_, hle⟩, _, hcont, hout, _⟩ := requestRun_spec mr tr
  have hA : (requestRun mr tr).attempts = i + 1 := by
    by_contra hne
    exact hnc (hcont i (Nat.zero_le i) (by omega))
  refine ⟨hA, ?_, ?_⟩
  · rw [hout, hA]; simp
  · rw [requestRun_sleeps_len, hA]; simp

/-- If attempt `i` runs with attempts remaining and hits an outcome on which
the loop does not stop (a 429 `CaretAPIError` or an unclassified failure),
the run retries: attempt `i + 1` also runs, after the sleep dictated by
attempt `i`'s outcome. -/
theorem requestRun_retries (mr : Nat) (tr : Nat → FetchResultM) (i : Nat)
    (hi : i < (requestRun mr tr).attempts)
    (hns : ¬ stopsAt mr (processFetch (tr i)) i)
    (himr : i < mr) :
    i + 1 < (requestRun mr tr).attempts
    ∧ (requestRun mr tr).sleepsMs[i]? = some (stepDelay (processFetch (tr i)) i) := by
  obtain ⟨⟨_, hle⟩, _, _, _, hlast⟩ := requestRun_spec mr tr
  have hadv : i + 1 < (requestRun mr tr).attempts := by
    by_contra hne
    have hAi : (requestRun mr tr).attempts - 1 = i := by omega
    rcases hlast with hfull | hstop
    · omega
    · rw [hAi] at hstop; exact hns hstop
  exact ⟨hadv, requestRun_sleep_at mr tr i hadv⟩

/-- Inversion: a typed `CaretAPIError` caught by the retry loop always comes
from a non-2xx response, and `CaretAPIError.generate` gave it that
response's status, the subclass name for that status, and the lowercased
response headers (from which the constructor extracted `requestId`). -/
theorem processFetch_api_inv (fr : FetchResultM) (e : APIErrorM)
    (h : processFetch fr = .err (.api e)) :
    ∃ r, fr = .resp r ∧ ¬(200 ≤ r.status ∧ r.status ≤ 299)
      ∧ e.status = r.status
      ∧ e.name = errorClassName r.status
      ∧ e.headers = lowerHeaders r.wireHeaders
      ∧ e.requestId = requestIdOf (lowerHeaders r.wireHeaders) := by
  cases fr with
  | thrown m => simp [processFetch] at h
  | resp r =>
    refine ⟨r, rfl, ?_⟩
    by_cases hok : 200 ≤ r.status ∧ r.status ≤ 299
    · cases hb : r.jsonBody with
      | ok v => simp [processFetch, hok, hb] at h
      | error m => simp [processFetch, hok, hb] at h
    · simp only [processFetch, if_neg hok] at h
      injection h with h1
      injection h1 with h2
      subst h2
      exact ⟨hok, rfl, rfl, rfl, rfl⟩

/-- C1: `request` numbers attempts `0..maxRetries` inclusive (so
`maxRetries = 3` means up to 4 total attempts); on a rate-limit (HTTP 429)
failure with attempts remaining it sleeps the number of seconds given by the
`retry-after` response header (matched case-insensitively: the error's
header record carries the lowercased wire names, in which the lowercase key
is looked up) when present and `2^attempt` seconds otherwise, then retries;
on a rate-limit failure with no attempts remaining it propagates the
`CaretAPIError` immediately without sleeping. -/
theorem request_rate_limit_retry_policy (mr : Nat) (tr : Nat → FetchResultM) :
    (1 ≤ (requestRun mr tr).attempts ∧ (requestRun mr tr).attempts ≤ mr + 1)
    ∧ (∀ i e, i < (requestRun mr tr).attempts → i < mr →
        processFetch (tr i) = .err (.api e) → e.status = 429 →
        i + 1 < (requestRun mr tr).attempts
        ∧ (requestRun mr tr).sleepsMs[i]? = some (retryDelayMs e i))
    ∧ (∀ e i n v, lookupHeader e.headers "retry-after" = some v → v ≠ "" →
        parseIntPrefix v = some n → retryDelayMs e i = n * 1000)
    ∧ (∀ e i, lookupHeader e.headers "retry-after" = none →
        lookupHeader e.headers "Retry-After" = none →
        retryDelayMs e i = 2 ^ i * 1000)
    ∧ (∀ fr e, processFetch fr = .err (.api e) →
        ∃ r, fr = .resp r ∧ e.headers = lowerHeaders r.wireHeaders)
    ∧ (∀ hs k v, hs.find? (fun kv => asciiLower kv.1 == "retry-after") = some (k, v) →
        lookupHeader (lowerHeaders hs) "retry-after" = some v)
    ∧ (∀ e, mr < (requestRun mr tr).attempts →
        processFetch (tr mr) = .err (.api e) → e.status = 429 →
        (requestRun mr tr).outcome = .threw (.api e)
        ∧ (requestRun mr tr).attempts = mr + 1
        ∧ (requestRun mr tr).sleepsMs.length = mr) := by
  refine ⟨⟨requestRun_attempts_pos mr tr, requestRun_attempts_le mr tr⟩, ?_, ?_, ?_, ?_, ?_, ?_⟩
  · intro i e hi himr hpf hst
    have hns : ¬ stopsAt mr (processFetch (tr i)) i := by
      rw [hpf]; simp [stopsAt]; omega
    obtain ⟨hadv, hsleep⟩ := requestRun_retries mr tr i hi hns himr
    refine ⟨hadv, ?_⟩
    rw [hsleep, hpf]
    rfl
  · intro e i n v hv hne hp
    simp only [retryDelayMs, hv, jsOrStr, if_neg hne, hp]
  · intro e i h1 h2
    simp only [retryDelayMs, h1, h2, jsOrStr]
  · intro fr e h
    obtain ⟨r, hfr, _, _, _, hh, _⟩ := processFetch_api_inv fr e h
    exact ⟨r, hfr, hh⟩
  · intro hs k v hfind
    simp only [lookupHeader, lowerHeaders, List.find?_map]
    have : (fun kv : String × String => kv.1 == "retry-after") ∘
        (fun kv : String × String => (asciiLower kv.1, kv.2)) =
        fun kv : String × String => asciiLower kv.1 == "retry-after" := rfl
    rw [this, hfind]
    rfl
  · intro e hmr hpf hst
    have hnc : ¬ continuesAt mr (processFetch (tr mr)) mr := by
      rw [hpf]; simp [continuesAt]
    obtain ⟨hA, hout, hlen⟩ := requestRun_stops mr tr mr hmr hnc
    refine ⟨?_, hA, by omega⟩
    rw [hout, hpf]; rfl

/-- Transport for the C1 witness: attempt 0 is rate-limited with a
`Retry-After: 7` wire header (and an unparseable error body), later attempts
succeed. -/
def trC1 : Nat → FetchResultM := fun i =>
  if i = 0 then
    .resp ⟨429, [("Retry-After", "7")], .error "Unexpected token", "Too Many Requests"⟩
  else .resp ⟨200, [], .ok JsVal.jnull, "OK"⟩

/-- The `RateLimitError` thrown by attempt 0 of `trC1`. -/
def errC1 : APIErrorM :=
  generate 429 (.jobj [("message", .jstr "Too Many Requests")])
    "Too Many Requests" (lowerHeaders [("Retry-After", "7")])

theorem request_rate_limit_retry_policy_witness :
    (requestRun 1 trC1).attempts = 2
    ∧ (requestRun 1 trC1).sleepsMs[0]? = some 7000
    ∧ lookupHeader (lowerHeaders [("Retry-After", "7")]) "retry-after" = some "7" := by
  obtain ⟨⟨hpos, hle⟩, hretry, hra, _, _, hci, _⟩ :=
    request_rate_limit_retry_policy 1 trC1
  have h0 : (0 : Nat) < (requestRun 1 trC1).attempts := by omega
  obtain ⟨hadv, hsleep⟩ := hretry 0 errC1 h0 (by omega) (by rfl) (by rfl)
  refine ⟨by omega, ?_, ?_⟩
  · rw [hsleep]; rfl
  · exact hci [("Retry-After", "7")] "Retry-After" "7" (by rfl)

/-- C2: every classified API error other than a 429 (status 400, 401, 403,
404, 409, 422, 500, or any unmapped status) is never retried: the run ends
at the attempt that hit it, with that `CaretAPIError` as the outcome and no
further sleep — so a transport returning HTTP 400 on the first attempt
causes exactly one attempt and an error whose subclass is
`BadRequestError`. -/
theorem request_non_rate_limit_not_retried (mr : Nat) (tr : Nat → FetchResultM)
    (i : Nat) (e : APIErrorM)
    (hi : i < (requestRun mr tr).attempts)
    (hpf : processFetch (tr i) = .err (.api e))
    (hst : e.status ≠ 429) :
    (requestRun mr tr).attempts = i + 1
    ∧ (requestRun mr tr).outcome = .threw (.api e)
    ∧ (requestRun mr tr).sleepsMs.length = i
    ∧ e.name = errorClassName e.status
    ∧ errorClassName 400 = "BadRequestError" := by
  have hnc : ¬ continuesAt mr (processFetch (tr i)) i := by
    rw [hpf]; simp [continuesAt]; omega
  obtain ⟨hA, hout, hlen⟩ := requestRun_stops mr tr i hi hnc
  obtain ⟨r, _, _, hes, hname, _, _⟩ := processFetch_api_inv (tr i) e hpf
  refine ⟨hA, ?_, hlen, ?_, rfl⟩
  · rw [hout, hpf]; rfl
  · rw [hname, hes]

/-- Transport for the C2 witness: HTTP 400 with a JSON error body on every
attempt. -/
def trC2 : Nat → FetchResultM := fun _ =>
  .resp ⟨400, [], .ok (.jobj [("message", .jstr "Bad request")]), "Bad Request"⟩

/-- The `BadRequestError` thrown by attempt 0 of `trC2`. -/
def errC2 : APIErrorM :=
  generate 400 (.jobj [("message", .jstr "Bad request")]) "Bad request" []

theorem request_non_rate_limit_not_retried_witness :
    (requestRun 3 trC2).attempts = 1
    ∧ (requestRun 3 trC2).outcome = .threw (.api errC2)
    ∧ (requestRun 3 trC2).sleepsMs.length = 0
    ∧ errC2.name = "BadRequestError" := by
  have h0 : (0 : Nat) < (requestRun 3 trC2).attempts := requestRun_attempts_pos 3 trC2
  obtain ⟨hA, hout, hlen, hname, hcls⟩ :=
    request_non_rate_limit_not_retried 3 trC2 0 errC2 h0 (by rfl) (by decide)
  exact ⟨hA, hout, hlen, by rw [hname]; rfl⟩

/-- C3: on an unclassified failure (network error, timeout — anything the
`try` block caught that is not a `CaretAPIError`) with attempts remaining,
`request` sleeps `2^attempt` seconds and retries; with no attempts remaining
it runs the loop out and propagates the last-seen underlying error itself
(`CaughtErr.other`, not wrapped into a `CaretAPIError`), without a further
sleep. -/
theorem request_unclassified_failure_policy (mr : Nat) (tr : Nat → FetchResultM) :
    (∀ i m, i < (requestRun mr tr).attempts → i < mr →
        processFetch (tr i) = .err (.other m) →
        i + 1 < (requestRun mr tr).attempts
        ∧ (requestRun mr tr).sleepsMs[i]? = some (2 ^ i * 1000))
    ∧ (∀ m, mr < (requestRun mr tr).attempts →
        processFetch (tr mr) = .err (.other m) →
        (requestRun mr tr).outcome = .threw (.other m)
        ∧ (requestRun mr tr).attempts = mr + 1
        ∧ (requestRun mr tr).sleepsMs.length = mr) := by
  constructor
  · intro i m hi himr hpf
    have hns : ¬ stopsAt mr (processFetch (tr i)) i := by
      rw [hpf]; simp [stopsAt]
    obtain ⟨hadv, hsleep⟩ := requestRun_retries mr tr i hi hns himr
    refine ⟨hadv, ?_⟩
    rw [hsleep, hpf]
    rfl
  · intro m hmr hpf
    obtain ⟨⟨_, hle⟩, _, _, hout, _⟩ := requestRun_spec mr tr
    have hA : (requestRun mr tr).attempts = mr + 1 := by omega
    refine ⟨?_, hA, ?_⟩
    · rw [hout, hA]
      simp only [Nat.add_sub_cancel]
      rw [hpf]
      rfl
    · rw [requestRun_sleeps_len, hA]
      omega

/-- Transport for the C3 witness: a thrown network error on every attempt. -/
def trC3 : Nat → FetchResultM := fun _ => .thrown "Network error"

theorem request_unclassified_failure_policy_witness :
    (requestRun 1 trC3).attempts = 2
    ∧ (requestRun 1 trC3).sleepsMs[0]? = some 1000
    ∧ (requestRun 1 trC3).outcome = .threw (.other "Network error") := by
  obtain ⟨hretry, hlast⟩ := request_unclassified_failure_policy 1 trC3
  have h0 : (0 : Nat) < (requestRun 1 trC3).attempts := requestRun_attempts_pos 1 trC3
  obtain ⟨hadv, hsleep⟩ := hretry 0 "Network error" h0 (by omega) (by rfl)
  obtain ⟨hout, hA, _⟩ := hlast "Network error" (by omega) (by rfl)
  exact ⟨hA, hsleep, hout⟩

/-- C4 (code bug): the claim says each individual attempt is bounded by a
fresh `timeoutMs` budget. The code instead creates `AbortSignal.timeout(
this.timeout)` once, in `requestOptions` before the retry loop, and passes
that same signal to every `fetch` attempt, so the single budget is anchored
at the request's start. Failing input: `timeoutMs = 1000`, request starts at
`t = 0`, attempt 0 fails fast with a network error, the `2^0`-second backoff
puts attempt 1's start at `t = 1500`. The shared signal has already fired
when attempt 1 starts (it aborts immediately with zero budget), while the
fresh per-attempt signal the claim describes would not fire until
`t = 2500`. -/
theorem request_timeout_signal_shared_not_per_attempt :
    (requestAbortSignal 1000 0).abortedAt 1500 = true
    ∧ (specFreshAttemptSignal 1000 1500).abortedAt 1500 = false
    ∧ (specFreshAttemptSignal 1000 1500).abortedAt 2500 = true := by
  decide

/-- C5 counterexample: for `path = "//x"` and the default
`baseURL = "https://api.caret.so/v1"`, the code strips one leading `/` and
resolves the remaining root-relative `"/x"` against the origin, producing
`https://api.caret.so/x` — the base's `/v1` segment is dropped — whereas
the claimed once-joined concatenation is `https://api.caret.so/v1//x`. -/
theorem request_url_join_counterexample :
    constructedURL ⟨"https://api.caret.so", "/v1"⟩ "//x" = "https://api.caret.so/x"
    ∧ specClaimedURL ⟨"https://api.caret.so", "/v1"⟩ "//x" = "https://api.caret.so/v1//x"
    ∧ constructedURL ⟨"https://api.caret.so", "/v1"⟩ "//x"
      ≠ specClaimedURL ⟨"https://api.caret.so", "/v1"⟩ "//x" := by
  refine ⟨rfl, rfl, ?_⟩
  decide

/-- C5 (amended): for every base URL and every path that, after stripping
one leading separator, does not begin with another separator and consists
only of plain URL characters (no dot segments, scheme prefixes,
query/fragment delimiters, or characters subject to percent-encoding), the
constructed URL is exactly the normalized base (trailing separator appended
if absent) concatenated with the stripped path. -/
theorem request_url_join_amended (b : BaseURL) (path : String)
    (hplain : ∀ c ∈ (stripLeadingSlash path).data, urlPlainChar c = true)
    (hns : startsWithSlash (stripLeadingSlash path) = false) :
    constructedURL b path = baseString (normalizeBase b) ++ stripLeadingSlash path := by
  show resolveURL (normalizeBase b) (stripLeadingSlash path) = _
  rw [resolveURL, if_neg (by simp [hns]), baseString, String.append_assoc]

theorem request_url_join_amended_witness :
    constructedURL ⟨"https://api.caret.so", "/v1"⟩ "/notes"
      = "https://api.caret.so/v1/notes" := by
  rw [request_url_join_amended ⟨"https://api.caret.so", "/v1"⟩ "/notes"
    (by decide) (by decide)]
  rfl

/-- C6 counterexample: a supplied `body` of `false` is JavaScript-falsy, so
`if (options.body && ...)` skips serialization even for POST — the request
carries no body although the canonical JSON encoding of the supplied value
is `"false"`. -/
theorem request_body_counterexample :
    requestBody "POST" (some (.jbool false)) = none
    ∧ stringify (.jbool false) = "false"
    ∧ requestBody "POST" (some (.jbool false)) ≠ some (stringify (.jbool false)) := by
  refine ⟨rfl, rfl, ?_⟩
  intro h
  simp [requestBody, truthy] at h

/-- C6 (amended): GET and DELETE requests never carry a serialized body even
when a `body` option is supplied; POST/PATCH/PUT serialize a supplied body
as the canonical JSON encoding exactly when the body value is truthy — a
falsy supplied body (`false`, `0`, `""`, `null`) is silently dropped. -/
theorem request_body_policy (method : String) (b : JsVal) :
    requestBody "GET" (some b) = none
    ∧ requestBody "DELETE" (some b) = none
    ∧ requestBody method none = none
    ∧ (truthy b = true → (method = "POST" ∨ method = "PATCH" ∨ method = "PUT") →
        requestBody method (some b) = some (stringify b))
    ∧ (truthy b = false → requestBody method (some b) = none) := by
  refine ⟨?_, ?_, rfl, ?_, ?_⟩
  · rw [requestBody, if_neg]
    rintro ⟨-, h | h | h⟩ <;> simp at h
  · rw [requestBody, if_neg]
    rintro ⟨-, h | h | h⟩ <;> simp at h
  · intro ht hm
    rw [requestBody, if_pos ⟨ht, hm⟩]
  · intro hf
    rw [requestBody, if_neg]
    rintro ⟨h, -⟩
    rw [hf] at h
    exact Bool.false_ne_true h

theorem request_body_policy_witness :
    requestBody "POST" (some (.jobj [("name", .jstr "x")])) = some "\x7b\"name\":\"x\"\x7d"
    ∧ requestBody "GET" (some (.jobj [("name", .jstr "x")])) = none := by
  obtain ⟨hget, _, _, hpost, _⟩ := request_body_policy "POST" (.jobj [("name", .jstr "x")])
  refine ⟨?_, hget⟩
  rw [hpost rfl (Or.inl rfl)]
  rfl

theorem char_toNat_ofNat (n : Nat) (h : n < 55296) : (Char.ofNat n).toNat = n := by
  unfold Char.ofNat
  rw [dif_pos (Or.inl h)]
  simp [Char.ofNatAux, Char.toNat, UInt32.toNat, BitVec.toNat_ofNat]

/-- ASCII lowercasing never produces a character in the uppercase range. -/
theorem asciiLowerChar_toNat_ne (c : Char) (u : Nat) (h1 : 65 ≤ u) (h2 : u ≤ 90) :
    (asciiLowerChar c).toNat ≠ u := by
  unfold asciiLowerChar
  by_cases h : 65 ≤ c.toNat ∧ c.toNat ≤ 90
  · rw [if_pos h, char_toNat_ofNat _ (by omega)]
    omega
  · rw [if_neg h]
    omega

/-- A lowercased header name is never the mixed-case spelling
`"X-Request-ID"`. -/
theorem asciiLower_ne_xrid (s : String) : asciiLower s ≠ "X-Request-ID" := by
  intro h
  have hd : s.data.map asciiLowerChar = "X-Request-ID".data := congrArg String.data h
  have hx : "X-Request-ID".data = 'X' :: "-Request-ID".data := rfl
  rw [hx] at hd
  cases hcs : s.data with
  | nil => rw [hcs] at hd; exact List.noConfusion hd
  | cons c cs =>
    rw [hcs, List.map_cons] at hd
    have h1 : asciiLowerChar c = 'X' := (List.cons_eq_cons.mp hd).1
    exact asciiLowerChar_toNat_ne c 88 (by omega) (by omega) (by rw [h1]; rfl)

/-- Unfolding `find?` through the lowercasing map: looking an exact
lowercase key up in the collected response headers is a case-insensitive
match on the wire header names. -/
theorem lookupHeader_lowerHeaders (hs : List (String × String)) (key : String) :
    lookupHeader (lowerHeaders hs) key =
      (hs.find? (fun kv => asciiLower kv.1 == key)).map (fun kv => kv.2) := by
  simp only [lookupHeader, lowerHeaders, List.find?_map]
  have hp : (fun kv : String × String => kv.1 == key) ∘
      (fun kv : String × String => (asciiLower kv.1, kv.2)) =
      fun kv : String × String => asciiLower kv.1 == key := rfl
  rw [hp]
  cases hs.find? (fun kv => asciiLower kv.1 == key) <;> rfl

theorem hexVal_hexDigitChar (n : Nat) (h : n < 16) : hexVal (hexDigitChar n) = some n := by
  interval_cases n <;> decide

/-- Decoding the lowercase hex encoding of a byte sequence recovers exactly
those bytes. -/
theorem bufferFromHex_toLowerHex (bytes : List Nat) (h : ∀ b ∈ bytes, b < 256) :
    bufferFromHex (toLowerHexStr bytes).data = bytes := by
  induction bytes with
  | nil => rfl
  | cons b rest ih =>
    have hb : b < 256 := h b (List.mem_cons_self b rest)
    have h1 := hexVal_hexDigitChar (b / 16 % 16) (Nat.mod_lt _ (by omega))
    have h2 := hexVal_hexDigitChar (b % 16) (Nat.mod_lt _ (by omega))
    have htail := ih (fun x hx => h x (List.mem_cons_of_mem b hx))
    show bufferFromHex (hexDigitChar (b / 16 % 16) :: hexDigitChar (b % 16) ::
      (toLowerHexStr rest).data) = b :: rest
    simp only [bufferFromHex, h1, h2]
    rw [htail]
    congr 1
    omega

/-- C7 (amended): `verify` returns `true` exactly when Node's lenient hex
decoding of `signature` (case-insensitive hex digits, decoding stopped at
the first invalid pair, a trailing odd character dropped) yields precisely
the HMAC-SHA256 digest bytes of the payload. In particular the lowercase-hex
digest is accepted, but so is any other spelling that decodes to the same
bytes (uppercase or mixed-case hex, or trailing garbage after a full valid
digest); every other signature yields `false`, and the function is total —
it never throws (the `timingSafeEqual` length-mismatch throw is caught and
collapsed to `false`). -/
theorem verify_accepts_decoded_digest (hmac : String → String → List Nat)
    (secret payload signature : String)
    (hb : ∀ b ∈ hmac secret payload, b < 256) :
    verify hmac secret payload signature = true ↔
      bufferFromHex signature.data = hmac secret payload := by
  unfold verify
  dsimp only
  rw [bufferFromHex_toLowerHex (hmac secret payload) hb]
  unfold timingSafeEqualM
  by_cases hlen : (hmac secret payload).length = (bufferFromHex signature.data).length
  · rw [if_pos hlen]
    simp only []
    rw [beq_iff_eq]
    exact eq_comm
  · rw [if_neg hlen]
    simp only []
    constructor
    · intro h; exact absurd h (by simp)
    · intro h; rw [h] at hlen; simp at hlen

/-- An HMAC stand-in for the C7 counterexample and witness: a fixed 32-byte
digest `ab ab ... ab`. -/
def hmacC7 : String → String → List Nat := fun _ _ => List.replicate 32 171

/-- The uppercase-hex spelling of the `hmacC7` digest. -/
def upperSigC7 : String := ⟨List.flatten (List.replicate 32 ['A', 'B'])⟩

/-- C7 counterexample: the claim says `verify` returns `true` iff the
signature equals the lowercase-hex digest, but the uppercase-hex spelling of
the digest also verifies: Node's `Buffer.from(·, "hex")` decodes hex
case-insensitively before the byte comparison. -/
theorem verify_counterexample :
    verify hmacC7 "secret" "payload" upperSigC7 = true
    ∧ upperSigC7 ≠ toLowerHexStr (hmacC7 "secret" "payload") := by
  refine ⟨by decide, by decide⟩

theorem verify_accepts_decoded_digest_witness :
    verify hmacC7 "secret" "payload" (toLowerHexStr (List.replicate 32 171)) = true := by
  refine (verify_accepts_decoded_digest hmacC7 "secret" "payload"
    (toLowerHexStr (List.replicate 32 171)) (by decide)).mpr ?_
  decide

/-- HMAC stand-in for the C8 scenarios: a fixed all-zero 32-byte digest. -/
def hmacC8 : String → String → List Nat := fun _ _ => List.replicate 32 0

/-- C8 counterexample: an `x-caret-signature` header that is present but
empty fails the JavaScript-falsy check `if (!signature)`, so the code
returns the missing-header result even though the claim's flow — header
present, so read the body — would report the body-read failure message
(`"stream error"` here). -/
theorem verifyRequest_counterexample :
    verifyRequest hmacC8 "sec" (fun _ => .ok .jnull)
      ⟨[("X-Caret-Signature", "")], .error "stream error"⟩
      = ⟨false, none, some "Missing X-Caret-Signature header"⟩
    ∧ "Missing X-Caret-Signature header" ≠ "stream error" := by
  refine ⟨rfl, by decide⟩

/-- C8 (amended): `verifyRequest` never throws and follows this flow: if the
signature header (case-insensitive) is absent — or present with an empty
value, which the JS-falsy check treats the same way — it returns the
missing-header result without reading the body; otherwise, if the body read
fails it returns `isValid: false` with the underlying error message; if
`verify` fails it returns `isValid: false` with `"Invalid signature"`; if
the signature is valid it parses the body as JSON and returns `isValid:
true` with the parsed event, and if that parse fails it returns `isValid:
false` with the parse error message. -/
theorem verifyRequest_flow (hmac : String → String → List Nat) (secret : String)
    (parseJson : String → Except String JsVal) (hs : List (String × String))
    (bt : Except String String) :
    ((headersGet hs "x-caret-signature" = none
        ∨ headersGet hs "x-caret-signature" = some "") →
      ∀ bt2, verifyRequest hmac secret parseJson ⟨hs, bt2⟩ =
        ⟨false, none, some "Missing X-Caret-Signature header"⟩)
    ∧ (∀ sig, headersGet hs "x-caret-signature" = some sig → sig ≠ "" →
        ((∀ e, bt = .error e →
            verifyRequest hmac secret parseJson ⟨hs, bt⟩ = ⟨false, none, some e⟩)
         ∧ (∀ body, bt = .ok body → verify hmac secret body sig = false →
            verifyRequest hmac secret parseJson ⟨hs, bt⟩ =
              ⟨false, none, some "Invalid signature"⟩)
         ∧ (∀ body d, bt = .ok body → verify hmac secret body sig = true →
            parseJson body = .ok d →
            verifyRequest hmac secret parseJson ⟨hs, bt⟩ = ⟨true, some d, none⟩)
         ∧ (∀ body e, bt = .ok body → verify hmac secret body sig = true →
            parseJson body = .error e →
            verifyRequest hmac secret parseJson ⟨hs, bt⟩ = ⟨false, none, some e⟩))) := by
  constructor
  · rintro (habs | hemp) bt2
    · simp [verifyRequest, habs]
    · simp [verifyRequest, hemp]
  · intro sig hsig hne
    refine ⟨?_, ?_, ?_, ?_⟩
    · intro e hbt
      simp [verifyRequest, hsig, hne, hbt]
    · intro body hbt hv
      simp [verifyRequest, hsig, hne, hbt, hv]
    · intro body d hbt hv hp
      simp [verifyRequest, hsig, hne, hbt, hv, hp]
    · intro body e hbt hv hp
      simp [verifyRequest, hsig, hne, hbt, hv, hp]

theorem verifyRequest_flow_witness :
    verifyRequest hmacC8 "sec" (fun _ => .ok .jnull) ⟨[("Content-Type", "json")], .ok "x"⟩
      = ⟨false, none, some "Missing X-Caret-Signature header"⟩
    ∧ verifyRequest hmacC8 "sec" (fun _ => .ok (.jstr "ev"))
        ⟨[("X-Caret-Signature", toLowerHexStr (List.replicate 32 0))],
          .ok "body"⟩
      = ⟨true, some (.jstr "ev"), none⟩ := by
  constructor
  · exact (verifyRequest_flow hmacC8 "sec" (fun _ => .ok .jnull)
      [("Content-Type", "json")] (.ok "x")).1 (Or.inl rfl) (.ok "x")
  · have h := ((verifyRequest_flow hmacC8 "sec" (fun _ => .ok (.jstr "ev"))
      [("X-Caret-Signature", toLowerHexStr (List.replicate 32 0))]
      (.ok "body")).2 (toLowerHexStr (List.replicate 32 0)) (by rfl)
      (by decide)).2.2.1
    exact h "body" (.jstr "ev") rfl (by decide) rfl

/-- C9 (amended): for every `CaretAPIError` the request pipeline constructs
from a response, `requestId` equals the value of the response's
`x-request-id` wire header — matched case-insensitively, because the
collected `responseHeaders` record carries the lowercased wire names —
whenever such a header is present with a nonempty value, and is absent when
no such header exists. (A header present with an empty value yields no
`requestId`: the constructor's `||` fallback treats `""` as falsy — see the
counterexample.) -/
theorem apiError_requestId_policy (status : Nat) (hs : List (String × String))
    (body : Except String JsVal) (st : String) (e : APIErrorM)
    (hpf : processFetch (.resp ⟨status, hs, body, st⟩) = .err (.api e)) :
    (∀ k v, hs.find? (fun kv => asciiLower kv.1 == "x-request-id") = some (k, v) →
        v ≠ "" → e.requestId = some v)
    ∧ (hs.find? (fun kv => asciiLower kv.1 == "x-request-id") = none →
        e.requestId = none) := by
  obtain ⟨r, hr, _, _, _, _, hrid⟩ := processFetch_api_inv _ e hpf
  injection hr with hr'
  subst hr'
  constructor
  · intro k v hfind hv
    rw [hrid]
    unfold requestIdOf
    rw [lookupHeader_lowerHeaders, hfind]
    simp [jsOrStr, hv]
  · intro hnone
    rw [hrid]
    unfold requestIdOf
    rw [lookupHeader_lowerHeaders, hnone]
    have h2 : lookupHeader (lowerHeaders hs) "X-Request-ID" = none := by
      rw [lookupHeader_lowerHeaders]
      rw [List.find?_eq_none.mpr (fun kv _ => by
        simp only [beq_iff_eq]
        exact fun hc => asciiLower_ne_xrid kv.1 hc)]
      rfl
    rw [h2]
    rfl

/-- The wire response for the C9 counterexample: an `x-request-id` header
present with an empty value. -/
def respC9 : HttpResponseM :=
  ⟨500, [("x-request-id", "")], .error "not json", "Internal Server Error"⟩

/-- C9 counterexample: the response carries an `x-request-id` header (it is
present, with value `""`), an `APIError` is constructed from it, yet
`requestId` is absent: the constructor's `headers['x-request-id'] ||
headers['X-Request-ID']` treats the empty string as falsy and the fallback
key is absent, leaving `requestId` undefined — the claim's "extracted
whenever such a header is present" fails here. -/
theorem apiError_requestId_counterexample :
    (apiErrorOf (processFetch (.resp respC9))).map (fun e => e.requestId) = some none
    ∧ lookupHeader (lowerHeaders respC9.wireHeaders) "x-request-id" = some ""
    ∧ (some (none : Option String)) ≠ some (some "") := by
  refine ⟨rfl, rfl, by decide⟩

/-- The `InternalServerError` constructed from the C9 witness response. -/
def errC9 : APIErrorM :=
  generate 500 (.jobj [("message", .jstr "Internal Server Error")])
    "Internal Server Error" (lowerHeaders [("X-Request-Id", "req-42")])

theorem apiError_requestId_policy_witness : errC9.requestId = some "req-42" := by
  obtain ⟨h1, _⟩ := apiError_requestId_policy 500 [("X-Request-Id", "req-42")]
    (.error "bad") "Internal Server Error" errC9 (by rfl)
  exact h1 "X-Request-Id" "req-42" (by rfl) (by decide)

/-- C10: giving the `Caret` constructor `options.apiKey = ""` throws the
API-key-required error even when the `CARET_API_KEY` environment variable
holds a nonempty key: `??` (nullish coalescing) keeps the empty string, and
the `if (!this.apiKey)` check then rejects it; the environment fallback is
consulted only when `apiKey` is absent. -/
theorem caret_constructor_empty_key (envKey : Option String) (k : String) :
    caretConstruct (some "") envKey =
      .error ("API key is required. Set CARET_API_KEY environment variable or " ++
        "pass apiKey option.")
    ∧ (k ≠ "" → caretConstruct (some k) envKey = .ok k)
    ∧ (k ≠ "" → caretConstruct none (some k) = .ok k) := by
  refine ⟨rfl, ?_, ?_⟩
  · intro hk
    simp [caretConstruct, hk]
  · intro hk
    simp [caretConstruct, hk]

theorem caret_constructor_empty_key_witness :
    caretConstruct (some "") (some "sk-env-123") =
      .error ("API key is required. Set CARET_API_KEY environment variable or " ++
        "pass apiKey option.")
    ∧ caretConstruct none (some "sk-env-123") = .ok "sk-env-123" := by
  obtain ⟨h1, _, h3⟩ := caret_constructor_empty_key (some "sk-env-123") "sk-env-123"
  exact ⟨h1, h3 (by decide)⟩
